import Mathlib

/-!
Verification of the AI-Video-Comment-Analyzer dashboard components.

This file gives a shallow embedding, in Lean 4, of the analysis-facing parts
of the TypeScript source of the repository (the stage machine of the progress
terminal, the sentiment-summary consumers, the ABSA section, the summary cards
and the lexical highlighting layer), and proves or refutes the spec claims
about them.  Machine integers of the source are modelled by `Nat`/`Int`,
JavaScript floating-point arithmetic by `ℚ` (with `Option` capturing the
NaN/Infinity outcomes of division by zero), and JavaScript strings by `String`
or `List Char`.
-/

/-! ## Sentiment data model

From the dashboard type layer (used by `overview-content.tsx`,
`results-overview.tsx`, the charts and the summary cards): the four-category
sentiment label and the snake_case `SentimentSummary` count record.
-/

inductive SentimentType where
  | positive
  | negative
  | suggestion
  | neutral
deriving DecidableEq, Repr

structure SentimentSummary where
  positive_count : Nat
  negative_count : Nat
  suggestion_count : Nat
  neutral_count : Nat
deriving DecidableEq, Repr

/-- The count a `SentimentSummary` stores for a given sentiment category. -/
def SentimentSummary.countOf (s : SentimentSummary) : SentimentType → Nat
  | SentimentType.positive => s.positive_count
  | SentimentType.negative => s.negative_count
  | SentimentType.suggestion => s.suggestion_count
  | SentimentType.neutral => s.neutral_count

/-- The position of a category in the fixed order
positive, negative, suggestion, neutral. -/
def SentimentType.rank : SentimentType → Nat
  | SentimentType.positive => 0
  | SentimentType.negative => 1
  | SentimentType.suggestion => 2
  | SentimentType.neutral => 3

/-- A comment as seen by the pipeline after classification: its sentiment
label (failed classifications are already normalized to `neutral`) and its
like count. -/
structure AnalyzedComment where
  sentiment : SentimentType
  like_count : Nat
deriving DecidableEq, Repr

/-- Modelled from the spec: the sentiment summary of the Aggregation Engine
(§4.4, "single pass, bucket counts and engagement sums by label") is not part
of the UI sources under `src/`; only its consumers are.  Each comment carries
exactly one `SentimentType` label, and the summary counts the comments whose
label equals the category of the bucket. -/
def aggregateSentiment (cs : List AnalyzedComment) : SentimentSummary where
  positive_count := (cs.filter (fun c => decide (c.sentiment = SentimentType.positive))).length
  negative_count := (cs.filter (fun c => decide (c.sentiment = SentimentType.negative))).length
  suggestion_count := (cs.filter (fun c => decide (c.sentiment = SentimentType.suggestion))).length
  neutral_count := (cs.filter (fun c => decide (c.sentiment = SentimentType.neutral))).length

/-- `SentimentPie` (charts): `const total = positive_count + negative_count +
suggestion_count + neutral_count`, the denominator used for the pie-chart
percentage labels. -/
def sentimentPieTotal (s : SentimentSummary) : Nat :=
  s.positive_count + s.negative_count + s.suggestion_count + s.neutral_count

/-! ## JavaScript numeric helpers

`Math.round` rounds half toward positive infinity.  A JavaScript division
whose denominator is `0` produces `NaN` or `Infinity`; a computation that
flows through such a division is modelled as `none`.
-/

/-- `Math.round`: round half up, on rationals. -/
def mathRound (q : ℚ) : ℤ := ⌊q + 1 / 2⌋

/-- `Math.round((count / total) * 100)` as JavaScript evaluates it: `none`
models the NaN (0/0) or Infinity (k/0) result when `total = 0`. -/
def jsRoundPercent (count total : Nat) : Option ℤ :=
  if total = 0 then none
  else some (mathRound ((count : ℚ) / (total : ℚ) * 100))

/-! ## Progress terminal (`progress-terminal.tsx`) -/

inductive AnalysisStage where
  | validating
  | fetching_metadata
  | extracting_comments
  | analyzing_sentiment
  | detecting_topics
  | generating_insights
  | complete
  | error
deriving DecidableEq, Repr

inductive StageStatus where
  | complete
  | active
  | error
  | pending
deriving DecidableEq, Repr

structure StageInfo where
  id : AnalysisStage
  label : String
  icon : String
deriving Repr

/-- The `STAGES` constant of `progress-terminal.tsx`, in source order. -/
def STAGES : List StageInfo :=
  [ { id := AnalysisStage.validating, label := "Validating URL", icon := "link" },
    { id := AnalysisStage.fetching_metadata, label := "Fetching Metadata", icon := "film" },
    { id := AnalysisStage.extracting_comments, label := "Extracting Comments", icon := "message-square" },
    { id := AnalysisStage.analyzing_sentiment, label := "Analyzing Sentiment", icon := "brain" },
    { id := AnalysisStage.detecting_topics, label := "Detecting Topics", icon := "tags" },
    { id := AnalysisStage.generating_insights, label := "Generating Insights", icon := "sparkles" } ]

/-- `Array.prototype.findIndex`: index of the first element satisfying `p`,
`-1` when none does. -/
def findIndexJS {α : Type} (p : α → Bool) (l : List α) : Int :=
  match l.findIdx? p with
  | some i => (i : Int)
  | none => -1

/-- `getStageStatus` from `progress-terminal.tsx`, with `currentStage`
captured from the component props as its first argument. -/
def getStageStatus (currentStage stageId : AnalysisStage) : StageStatus :=
  let stageIndex := findIndexJS (fun s => decide (s.id = stageId)) STAGES
  let currentIndex := findIndexJS (fun s => decide (s.id = currentStage)) STAGES
  if currentStage = AnalysisStage.complete then StageStatus.complete
  else if currentStage = AnalysisStage.error then
    if stageIndex < currentIndex then StageStatus.complete
    else if stageIndex = currentIndex then StageStatus.error
    else StageStatus.pending
  else if stageIndex < currentIndex then StageStatus.complete
  else if stageIndex = currentIndex then StageStatus.active
  else StageStatus.pending

/-- The six pipeline stage identifiers in source order (`STAGES.map(s => s.id)`). -/
def pipelineStages : List AnalysisStage :=
  [ AnalysisStage.validating,
    AnalysisStage.fetching_metadata,
    AnalysisStage.extracting_comments,
    AnalysisStage.analyzing_sentiment,
    AnalysisStage.detecting_topics,
    AnalysisStage.generating_insights ]

/-- The `i`-th pipeline stage. -/
def stageAt (i : Fin 6) : AnalysisStage :=
  pipelineStages.get ⟨i.val, by cases i with | mk v h => simpa [pipelineStages] using h⟩

/-! ## `ResultsOverview` (`results-overview.tsx`) -/

namespace ResultsOverview

/-- `hasComments ? totalComments : 1`, the guarded percentage denominator. -/
def totalForPercent (totalComments : Nat) : Nat :=
  if 0 < totalComments then totalComments else 1

/-- One entry of the `percentages` record of the component:
`Math.round((count / totalForPercent) * 100)`.  The denominator is never `0`,
so the result is a plain integer. -/
def percentage (count totalComments : Nat) : ℤ :=
  mathRound ((count : ℚ) / (totalForPercent totalComments : ℚ) * 100)

/-- The `dominantSentiment` memo: `entries.reduce((best, current) =>
current.count > best.count ? current : best).key` over the four categories in
the order positive, negative, suggestion, neutral. -/
def dominantSentiment (s : SentimentSummary) : SentimentType :=
  (List.foldl
    (fun best current => if current.2 > best.2 then current else best)
    (SentimentType.positive, s.positive_count)
    [ (SentimentType.negative, s.negative_count),
      (SentimentType.suggestion, s.suggestion_count),
      (SentimentType.neutral, s.neutral_count) ]).1

/-- `SENTIMENT_HEADLINES`. -/
def sentimentHeadline : SentimentType → String
  | SentimentType.positive => "Mostly positive"
  | SentimentType.negative => "Mostly negative"
  | SentimentType.suggestion => "Suggestion-focused"
  | SentimentType.neutral => "Mostly neutral"

/-- `getHeadline`. -/
def getHeadline (hasComments : Bool) (dominant : SentimentType) (pct : ℤ) : String :=
  if hasComments then
    sentimentHeadline dominant ++ " (" ++ toString pct ++ "%)"
  else
    "No comments analyzed"

/-- `getBreakdown`, specialised to the no-comments branch wording. -/
def getBreakdown (hasComments : Bool) (pPos pNeg pSug pNeu : ℤ) : String :=
  if hasComments then
    toString pPos ++ "% positive, " ++ toString pNeg ++ "% negative, "
      ++ toString pSug ++ "% suggestions, " ++ toString pNeu ++ "% neutral."
  else
    "No comments were analyzed for this video."

/-- The percentages/headline/breakdown the component derives from its props,
bundled. -/
structure View where
  pPos : ℤ
  pNeg : ℤ
  pSug : ℤ
  pNeu : ℤ
  headline : String
  breakdown : String
deriving DecidableEq, Repr

/-- The component body: `hasComments = totalComments > 0`, the four guarded
percentages, and the derived headline and breakdown strings. -/
def view (s : SentimentSummary) (totalComments : Nat) : View :=
  let hasComments := decide (0 < totalComments)
  let pPos := percentage s.positive_count totalComments
  let pNeg := percentage s.negative_count totalComments
  let pSug := percentage s.suggestion_count totalComments
  let pNeu := percentage s.neutral_count totalComments
  let dom := dominantSentiment s
  let domPct := percentage (s.countOf dom) totalComments
  { pPos := pPos, pNeg := pNeg, pSug := pSug, pNeu := pNeu,
    headline := getHeadline hasComments dom domPct,
    breakdown := getBreakdown hasComments pPos pNeg pSug pNeu }

end ResultsOverview

/-! ## `OverviewContent` (`overview-content.tsx`) -/

namespace OverviewContent

/-- The three-way dominant-tone value of the component: it compares only the
positive and negative counts and falls back to `balanced` on a tie. -/
inductive Tone where
  | positive
  | negative
  | balanced
deriving DecidableEq, Repr

/-- `positivePercent = Math.round((sentiment.positive_count / total_comments)
* 100)` — the denominator is `total_comments` itself, unguarded. -/
def positivePercent (s : SentimentSummary) (total_comments : Nat) : Option ℤ :=
  jsRoundPercent s.positive_count total_comments

/-- `negativePercent`, unguarded like `positivePercent`. -/
def negativePercent (s : SentimentSummary) (total_comments : Nat) : Option ℤ :=
  jsRoundPercent s.negative_count total_comments

/-- `suggestionPercent`, unguarded like `positivePercent`. -/
def suggestionPercent (s : SentimentSummary) (total_comments : Nat) : Option ℤ :=
  jsRoundPercent s.suggestion_count total_comments

/-- `neutralPercent`, unguarded like `positivePercent`. -/
def neutralPercent (s : SentimentSummary) (total_comments : Nat) : Option ℤ :=
  jsRoundPercent s.neutral_count total_comments

/-- `dominantSentiment` from `overview-content.tsx`: `positive_count >
negative_count ? "positive" : negative_count > positive_count ? "negative" :
"balanced"`. -/
def dominantSentiment (s : SentimentSummary) : Tone :=
  if s.positive_count > s.negative_count then Tone.positive
  else if s.negative_count > s.positive_count then Tone.negative
  else Tone.balanced

end OverviewContent

/-! ## ABSA section (`absa-section` component)

Recommendation priorities and the `ABSASection` sort of the recommendation
list.  The JavaScript `Array.prototype.sort` is a stable sort; the comparator
`PRIORITY_ORDER.indexOf(a.priority) - PRIORITY_ORDER.indexOf(b.priority)`
orders ascending by index in `PRIORITY_ORDER`.  A stable sort by a total
preorder has a unique result, so it is modelled by a stable insertion sort
over the same key.
-/

inductive RecommendationPriority where
  | critical
  | high
  | medium
  | low
deriving DecidableEq, Repr

/-- `PRIORITY_ORDER = ["critical", "high", "medium", "low"]`. -/
def PRIORITY_ORDER : List RecommendationPriority :=
  [ RecommendationPriority.critical,
    RecommendationPriority.high,
    RecommendationPriority.medium,
    RecommendationPriority.low ]

structure ABSARecommendation where
  priority : RecommendationPriority
  title : String
  description : String
  evidence : String
  action_items : List String
deriving DecidableEq, Repr

/-- `PRIORITY_ORDER.indexOf(p)` (every priority occurs, so the JS `-1` case
is unreachable). -/
def priorityIndex (p : RecommendationPriority) : Int :=
  findIndexJS (fun q => decide (q = p)) PRIORITY_ORDER

namespace ABSASection

/-- Insert `x` into `l` before the first element the comparator does not
place strictly earlier than `x`; the insertion step of a stable sort
ascending by `priorityIndex`. -/
def sortInsert (x : ABSARecommendation) : List ABSARecommendation → List ABSARecommendation
  | [] => [x]
  | y :: ys =>
      if priorityIndex y.priority < priorityIndex x.priority then y :: sortInsert x ys
      else x :: y :: ys

/-- Stable sort ascending by `priorityIndex`; the element that came first in
the input is kept first among equal keys, as ECMAScript requires of
`Array.prototype.sort`. -/
def stableSortByPriority : List ABSARecommendation → List ABSARecommendation
  | [] => []
  | x :: xs => sortInsert x (stableSortByPriority xs)

/-- `const sortedRecommendations = [...absa.recommendations].sort((a, b) =>
PRIORITY_ORDER.indexOf(a.priority) - PRIORITY_ORDER.indexOf(b.priority))`. -/
def sortedRecommendations (recs : List ABSARecommendation) : List ABSARecommendation :=
  stableSortByPriority recs

end ABSASection

/-! ## `SummaryCard` (summary-card component) -/

/-- The per-bucket narrative summary record (`summaries` entry); the entry a
consumer receives is `Option SentimentSummaryText`, with `none` standing for
the JavaScript `null`/absent entry produced when generation failed for that
bucket. -/
structure SentimentSummaryText where
  summary : String
deriving DecidableEq, Repr

namespace SummaryCard

/-- Truthiness of `summary?.summary`: `false` for a `null` entry (optional
chaining yields `undefined`) and for an empty summary string. -/
def summaryTruthy : Option SentimentSummaryText → Bool
  | none => false
  | some st => !(st.summary == "")

/-- `hasEnoughData = commentCount >= 5`. -/
def hasEnoughData (commentCount : Nat) : Bool := decide (5 ≤ commentCount)

/-- The text the Summary block renders: the summary itself when
`hasEnoughData && summary?.summary`, otherwise the explicit fallback for the
enough-data case or the not-enough-data message. -/
def renderedSummaryText (summaryEntry : Option SentimentSummaryText) (commentCount : Nat) : String :=
  if hasEnoughData commentCount && summaryTruthy summaryEntry then
    (match summaryEntry with
     | some st => st.summary
     | none => "")
  else if hasEnoughData commentCount then "AI summary unavailable"
  else "Not enough data for a reliable summary (need 5+ comments)"

end SummaryCard

/-! ## `AspectCard` (ABSA section) -/

/-- `const healthScore = ((stats.sentiment_score + 1) / 2) * 100` from
`AspectCard`, on the sentiment score of the aspect. -/
def aspectCardHealthScore (sentiment_score : ℚ) : ℚ :=
  ((sentiment_score + 1) / 2) * 100

/-- The per-aspect health formula of the spec, written as the spec words it
(`50 + 50 * s`), for comparison with `aspectCardHealthScore`. -/
def specAspectHealth (s : ℚ) : ℚ := 50 + 50 * s

/-! ## Lexical highlighting layer (`highlight-words` module)

The source scans a comment with the JavaScript word-and-apostrophe regex
(backslash-b, then one or more characters from the class of backslash-w and
the apostrophe, then backslash-b, with the global flag) and
classifies each matched word by cue lists.  `\w` is `[A-Za-z0-9_]`; `\b`
holds between a word character and a non-word character (ends of the string
count as non-word).  A match therefore starts at a boundary, greedily takes
characters from the class (word characters and apostrophes), and backtracks
over trailing apostrophes (an
apostrophe is not a word character, so the closing `\b` forces the match to
end on a word character).  `scanTokens` below implements exactly that engine
behaviour: at each candidate position it checks the boundary, takes the
greedy class run, trims trailing apostrophes, and on an empty result (a
pure-apostrophe run) advances one character.
-/

/-- The word lists of `highlight-words`, as character lists. -/
def POSITIVE_WORDS : List (List Char) :=
  List.map String.toList
    [ "love", "loved", "loving", "amazing", "awesome", "great", "excellent",
      "fantastic", "wonderful", "perfect", "best", "incredible", "beautiful",
      "brilliant", "outstanding", "superb", "magnificent", "exceptional",
      "thank", "thanks", "appreciate", "helpful", "informative", "inspiring",
      "enjoy", "enjoyed", "enjoying", "favorite", "favourite", "good", "nice",
      "cool", "fire", "goat", "legendary", "masterpiece", "genius", "blessed" ]

def NEGATIVE_WORDS : List (List Char) :=
  List.map String.toList
    [ "hate", "hated", "hating", "terrible", "awful", "worst", "bad", "horrible",
      "disgusting", "pathetic", "disappointing", "disappointed", "waste",
      "boring", "annoying", "stupid", "dumb", "trash", "garbage", "useless",
      "wrong", "false", "misleading", "clickbait", "scam", "fake", "liar",
      "dislike", "disliked", "sucks", "suck", "poor", "ridiculous", "absurd" ]

def SUGGESTION_WORDS : List (List Char) :=
  List.map String.toList
    [ "should", "could", "would", "suggest", "suggestion", "recommend",
      "please", "maybe", "perhaps", "consider", "try", "hope", "wish",
      "need", "want", "improve", "better", "next", "future", "idea",
      "how about", "what if", "can you", "will you", "do more", "make more" ]

/-- `\w`: ASCII letters, digits and underscore. -/
def isWordChar (c : Char) : Bool := (c.isAlpha || c.isDigit) || c == '_'

/-- The apostrophe character (U+0027). -/
def apostropheChar : Char := Char.ofNat 39

/-- The regex character class: word characters and the apostrophe. -/
def isClassChar (c : Char) : Bool := isWordChar c || c == apostropheChar

/-- Drop the trailing apostrophes of a candidate match (the closing `\b`
backtracking). -/
def trimTrailingApostrophes (l : List Char) : List Char :=
  (l.reverse.dropWhile (fun c => c == apostropheChar)).reverse

/-- One type per highlighted word, as in `HighlightedWord["type"]`. -/
inductive HighlightType where
  | positive
  | negative
  | suggestion
  | normal
deriving DecidableEq, Repr

/-- `lowerWord === cue || lowerWord.startsWith(cue)`. -/
def cueMatch (lowerWord cue : List Char) : Bool :=
  lowerWord == cue || cue.isPrefixOf lowerWord

/-- The cue-decision chain of `highlightText` on an already-lowercased word:
positive cues are tested first, then negative, then suggestion. -/
def cueType (lowerWord : List Char) : HighlightType :=
  if POSITIVE_WORDS.any (fun pw => cueMatch lowerWord pw) then HighlightType.positive
  else if NEGATIVE_WORDS.any (fun nw => cueMatch lowerWord nw) then HighlightType.negative
  else if SUGGESTION_WORDS.any (fun sw => cueMatch lowerWord sw) then HighlightType.suggestion
  else HighlightType.normal

/-- The regex match loop: `prevWord` records whether the character
before `pos` is a word character (`false` at the start of the text), `pos` is
the absolute position of the head of `s` in the scanned text.  Produces the
matches as `(start, matchedCharacters)` pairs in order.  The `fuel` argument
only makes the recursion structural (each step consumes at least one
character, so any `fuel ≥ s.length` gives the same result as the unbounded
source loop; `scanTokens` below instantiates it that way). -/
def scanTokensAux : Nat → Bool → Nat → List Char → List (Nat × List Char)
  | 0, _, _, _ => []
  | _ + 1, _, _, [] => []
  | fuel + 1, prevWord, pos, c :: rest =>
    if (prevWord != isWordChar c) && isClassChar c then
      if (trimTrailingApostrophes (List.takeWhile isClassChar (c :: rest))).length = 0 then
        scanTokensAux fuel (isWordChar c) (pos + 1) rest
      else
        (pos, trimTrailingApostrophes (List.takeWhile isClassChar (c :: rest))) ::
          scanTokensAux fuel true
            (pos + (trimTrailingApostrophes (List.takeWhile isClassChar (c :: rest))).length)
            (List.drop (trimTrailingApostrophes (List.takeWhile isClassChar (c :: rest))).length
              (c :: rest))
    else
      scanTokensAux fuel (isWordChar c) (pos + 1) rest

/-- The full regex scan of a text, from position `0` with no preceding word
character. -/
def scanTokens (text : List Char) : List (Nat × List Char) :=
  scanTokensAux text.length false 0 text

/-- `HighlightedWord`: the matched text, its type, and its `start`/`end`
offsets (`end` is a Lean keyword, so that field is named `stop`). -/
structure HWord where
  text : List Char
  type : HighlightType
  start : Nat
  stop : Nat
deriving DecidableEq, Repr

/-- Build the `HighlightedWord` record pushed for one match: the matched
text, its type from `cueType` on the lowercased word, and the
`start`/`end` offsets. -/
def toHWord (m : Nat × List Char) : HWord :=
  { text := m.2,
    type := cueType (m.2.map Char.toLower),
    start := m.1,
    stop := m.1 + m.2.length }

/-- `highlightText`: run the regex loop over the text and classify each
matched word by `cueType` on its lowercasing. -/
def highlightText (text : List Char) : List HWord :=
  (scanTokens text).map toHWord

/-- One output segment of `getHighlightedSegments`. -/
structure Segment where
  text : List Char
  type : HighlightType
deriving DecidableEq, Repr

/-- `text.slice(a, b)` on character lists (for the in-range offsets produced
by the scanner). -/
def jsSlice (text : List Char) (a b : Nat) : List Char :=
  (text.drop a).take (b - a)

/-- The segment-building loop of `getHighlightedSegments`: emit the gap
before each word (if any), then the slice of the word, and finally the tail after
the last word. -/
def segsLoop (text : List Char) (lastEnd : Nat) : List HWord → List Segment
  | [] =>
      if lastEnd < text.length then
        [{ text := text.drop lastEnd, type := HighlightType.normal }]
      else []
  | w :: ws =>
      (if lastEnd < w.start then
        [{ text := jsSlice text lastEnd w.start, type := HighlightType.normal }]
      else [])
      ++ { text := jsSlice text w.start w.stop, type := w.type } :: segsLoop text w.stop ws

/-- `getHighlightedSegments`. -/
def getHighlightedSegments (text : List Char) : List Segment :=
  segsLoop text 0 (highlightText text)

/-- The invariant linking a word list produced by the scanner to the scanned
text: starting from lower bound `lb`, each word starts at or after the bound,
its `stop` is `start` plus its length, it stays inside the text, its `text`
field is exactly the corresponding slice of the text, it is a nonempty run of
class characters, and the rest of the list is chained from its `stop`. -/
inductive SpanChain (text : List Char) : Nat → List HWord → Prop where
  | nil : ∀ lb : Nat, lb ≤ text.length → SpanChain text lb []
  | cons : ∀ (lb : Nat) (w : HWord) (ws : List HWord),
      lb ≤ w.start →
      w.stop = w.start + w.text.length →
      w.stop ≤ text.length →
      w.text = jsSlice text w.start w.stop →
      w.text ≠ [] →
      w.text.all isClassChar = true →
      SpanChain text w.stop ws →
      SpanChain text lb (w :: ws)

/-! ## Shared helper lemmas -/

/-- A span chain starting at `lb` also starts at any earlier bound. -/
theorem spanChain_mono {text : List Char} {lb lb' : Nat} {ws : List HWord}
    (hle : lb' ≤ lb) (h : SpanChain text lb ws) : SpanChain text lb' ws := by
  cases h with
  | nil _ hlen => exact SpanChain.nil _ (le_trans hle hlen)
  | cons _ w ws hstart hstop hlen htext hne hall hrest =>
      exact SpanChain.cons _ w ws (le_trans hle hstart) hstop hlen htext hne hall hrest

/-- Trimming trailing apostrophes keeps an initial segment of the list. -/
theorem trim_apostrophes_front (l : List Char) : trimTrailingApostrophes l <+: l := by
  unfold trimTrailingApostrophes
  have h : List.dropWhile (fun c => c == apostropheChar) l.reverse <:+ l.reverse :=
    List.dropWhile_suffix _
  have h2 := List.reverse_prefix.mpr h
  rwa [List.reverse_reverse] at h2

/-- A slice glued to the drop at its endpoint gives the drop at its start. -/
theorem jsSlice_append_drop {t : List Char} {a b : Nat} (hab : a ≤ b) :
    jsSlice t a b ++ t.drop b = t.drop a := by
  unfold jsSlice
  have h1 : t.drop b = (t.drop a).drop (b - a) := by
    rw [List.drop_drop]
    congr 1
    omega
  rw [h1, List.take_append_drop]

/-- Over a span chain, the segment texts concatenate to the tail of the text
from the lower bound on. -/
theorem segsLoop_flatten {text : List Char} {lb : Nat} {ws : List HWord}
    (h : SpanChain text lb ws) :
    ((segsLoop text lb ws).map Segment.text).flatten = text.drop lb := by
  induction h with
  | nil lb hlen =>
    by_cases hlt : lb < text.length
    · simp [segsLoop, hlt]
    · have hd : text.drop lb = [] := by
        rw [List.drop_eq_nil_iff]
        omega
      simp [segsLoop, hlt, hd]
  | cons lb w ws hstart hstop hlen htext hne hall hrest ih =>
    have hsw : w.start ≤ w.stop := by omega
    by_cases hgap : lb < w.start
    · simp only [segsLoop, if_pos hgap, List.map_append, List.map_cons, List.map_nil,
        List.flatten_append, List.flatten_cons, List.flatten_nil, ih, List.nil_append,
        List.append_nil]
      rw [jsSlice_append_drop hsw, jsSlice_append_drop (le_of_lt hgap)]
    · have heq : lb = w.start := by omega
      subst heq
      simp only [segsLoop, if_neg hgap, List.nil_append, List.map_cons, List.flatten_cons, ih]
      rw [jsSlice_append_drop hsw]

/-- The scanner only produces spans that chain correctly inside the scanned
text: each match starts at or after the scan position, stays in bounds, is the
slice it claims to be, and is a nonempty run of class characters. -/
theorem spanChain_scanTokensAux (text : List Char) :
    ∀ (fuel : Nat) (s : List Char), s.length ≤ fuel → ∀ (prevWord : Bool) (pos : Nat),
      pos ≤ text.length → s = text.drop pos →
      SpanChain text pos ((scanTokensAux fuel prevWord pos s).map toHWord) := by
  intro fuel
  induction fuel with
  | zero =>
    intro s hs prevWord pos hpos hdrop
    rw [scanTokensAux]
    exact SpanChain.nil pos hpos
  | succ n ih =>
    intro s hs prevWord pos hpos hdrop
    cases s with
    | nil =>
      rw [scanTokensAux]
      exact SpanChain.nil pos hpos
    | cons c rest =>
      have hlt : pos < text.length := by
        by_contra hge
        push_neg at hge
        have hdn : text.drop pos = [] := by
          rw [List.drop_eq_nil_iff]
          omega
        rw [hdn] at hdrop
        exact List.cons_ne_nil c rest hdrop
      have hrest : rest = text.drop (pos + 1) := by
        calc rest = (c :: rest).drop 1 := rfl
        _ = (text.drop pos).drop 1 := by rw [← hdrop]
        _ = text.drop (pos + 1) := by rw [List.drop_drop]
      have hslen : rest.length ≤ n := by
        have := hs
        simp only [List.length_cons] at this
        omega
      rw [scanTokensAux]
      by_cases hb : ((prevWord != isWordChar c) && isClassChar c) = true
      · rw [if_pos hb]
        by_cases h0 : (trimTrailingApostrophes (List.takeWhile isClassChar (c :: rest))).length = 0
        · rw [if_pos h0]
          exact spanChain_mono (Nat.le_succ pos)
            (ih rest hslen (isWordChar c) (pos + 1) hlt hrest)
        · rw [if_neg h0]
          have htokpre : trimTrailingApostrophes (List.takeWhile isClassChar (c :: rest))
              <+: (c :: rest) :=
            (trim_apostrophes_front _).trans (List.takeWhile_prefix _)
          have htoklen :
              (trimTrailingApostrophes (List.takeWhile isClassChar (c :: rest))).length
                ≤ (c :: rest).length :=
            htokpre.length_le
          have hclen : (c :: rest).length = text.length - pos := by
            rw [hdrop, List.length_drop]
          rw [List.map_cons]
          refine SpanChain.cons pos _ _ (le_refl pos) rfl ?_ ?_ ?_ ?_ ?_
          · show pos + (trimTrailingApostrophes (List.takeWhile isClassChar (c :: rest))).length
                ≤ text.length
            omega
          · show trimTrailingApostrophes (List.takeWhile isClassChar (c :: rest))
              = jsSlice text pos
                  (pos + (trimTrailingApostrophes (List.takeWhile isClassChar (c :: rest))).length)
            unfold jsSlice
            rw [Nat.add_sub_cancel_left, ← hdrop]
            exact List.prefix_iff_eq_take.mp htokpre
          · show trimTrailingApostrophes (List.takeWhile isClassChar (c :: rest)) ≠ []
            intro hl
            rw [hl] at h0
            exact h0 rfl
          · show (trimTrailingApostrophes (List.takeWhile isClassChar (c :: rest))).all
                isClassChar = true
            rw [List.all_eq_true]
            intro x hx
            exact List.mem_takeWhile_imp
              (((trim_apostrophes_front _).sublist.subset) hx)
          · show SpanChain text
                (pos + (trimTrailingApostrophes (List.takeWhile isClassChar (c :: rest))).length)
                ((scanTokensAux n true
                  (pos + (trimTrailingApostrophes (List.takeWhile isClassChar (c :: rest))).length)
                  (List.drop (trimTrailingApostrophes (List.takeWhile isClassChar (c :: rest))).length
                    (c :: rest))).map toHWord)
            apply ih
            · rw [List.length_drop]
              simp only [List.length_cons] at hs ⊢
              omega
            · omega
            · rw [hdrop, List.drop_drop]
      · rw [if_neg hb]
        exact spanChain_mono (Nat.le_succ pos)
          (ih rest hslen (isWordChar c) (pos + 1) hlt hrest)

/-- The words `highlightText` produces form a span chain over the text from
position `0`. -/
theorem spanChain_highlightText (text : List Char) :
    SpanChain text 0 (highlightText text) :=
  spanChain_scanTokensAux text text.length text (le_refl _) false 0 (Nat.zero_le _) rfl

/-- Every word of a span chain is the slice it claims to be, nonempty and made
of class characters. -/
theorem spanChain_all {text : List Char} {lb : Nat} {ws : List HWord}
    (h : SpanChain text lb ws) :
    ∀ w ∈ ws, w.text = jsSlice text w.start w.stop ∧ w.text ≠ [] ∧
      w.text.all isClassChar = true := by
  induction h with
  | nil lb hlen =>
    intro w hw
    exact absurd hw (List.not_mem_nil w)
  | cons lb w ws hstart hstop hlen htext hne hall hrest ih =>
    intro v hv
    rcases List.mem_cons.mp hv with hv1 | hv2
    · subst hv1
      exact ⟨htext, hne, hall⟩
    · exact ih v hv2

/-- A segment with a non-`normal` type always comes from one of the words
passed to the segment loop (the gap and tail segments are `normal`). -/
theorem segsLoop_mem_of_ne_normal {text : List Char} :
    ∀ (ws : List HWord) (lastEnd : Nat) (seg : Segment),
      seg ∈ segsLoop text lastEnd ws → seg.type ≠ HighlightType.normal →
      ∃ w ∈ ws, seg.text = jsSlice text w.start w.stop ∧ seg.type = w.type := by
  intro ws
  induction ws with
  | nil =>
    intro lastEnd seg hseg hne
    unfold segsLoop at hseg
    split_ifs at hseg with hlt
    · rcases List.mem_singleton.mp hseg with h1
      rw [h1] at hne
      exact absurd rfl hne
    · exact absurd hseg (List.not_mem_nil seg)
  | cons w ws ih =>
    intro lastEnd seg hseg hne
    unfold segsLoop at hseg
    rcases List.mem_append.mp hseg with hgap | hrest
    · split_ifs at hgap with hlt
      · rcases List.mem_singleton.mp hgap with h1
        rw [h1] at hne
        exact absurd rfl hne
      · exact absurd hgap (List.not_mem_nil seg)
    · rcases List.mem_cons.mp hrest with h1 | h2
      · exact ⟨w, List.mem_cons_self w ws, by rw [h1], by rw [h1]⟩
      · obtain ⟨v, hvmem, hvtext, hvtype⟩ := ih w.stop seg h2 hne
        exact ⟨v, List.mem_cons_of_mem w hvmem, hvtext, hvtype⟩

namespace ABSASection

/-- Inserting into the sorted prefix is a permutation of consing. -/
theorem sortInsert_perm (x : ABSARecommendation) (l : List ABSARecommendation) :
    (sortInsert x l).Perm (x :: l) := by
  induction l with
  | nil => simp [sortInsert]
  | cons y ys ih =>
    unfold sortInsert
    split_ifs
    · exact ((ih.cons y).trans (List.Perm.swap x y ys))
    · exact List.Perm.refl _

/-- The stable sort permutes its input. -/
theorem stableSort_perm (l : List ABSARecommendation) :
    (stableSortByPriority l).Perm l := by
  induction l with
  | nil => exact List.Perm.refl _
  | cons x xs ih =>
    exact (sortInsert_perm x (stableSortByPriority xs)).trans (ih.cons x)

/-- Insertion preserves sortedness by priority index. -/
theorem pairwise_sortInsert (x : ABSARecommendation) (l : List ABSARecommendation)
    (h : l.Pairwise (fun a b => priorityIndex a.priority ≤ priorityIndex b.priority)) :
    (sortInsert x l).Pairwise (fun a b => priorityIndex a.priority ≤ priorityIndex b.priority) := by
  induction l with
  | nil => simp [sortInsert]
  | cons y ys ih =>
    rw [List.pairwise_cons] at h
    unfold sortInsert
    split_ifs with hlt
    · rw [List.pairwise_cons]
      refine ⟨?_, ih h.2⟩
      intro z hz
      have hz' := (sortInsert_perm x ys).mem_iff.mp hz
      rcases List.mem_cons.mp hz' with hz1 | hz2
      · subst hz1
        exact le_of_lt hlt
      · exact h.1 z hz2
    · rw [List.pairwise_cons]
      refine ⟨?_, List.pairwise_cons.mpr h⟩
      intro z hz
      rcases List.mem_cons.mp hz with hz1 | hz2
      · subst hz1
        omega
      · have := h.1 z hz2
        omega

/-- The stable sort is sorted by priority index. -/
theorem pairwise_stableSort (l : List ABSARecommendation) :
    (stableSortByPriority l).Pairwise
      (fun a b => priorityIndex a.priority ≤ priorityIndex b.priority) := by
  induction l with
  | nil => simp [stableSortByPriority]
  | cons x xs ih => exact pairwise_sortInsert x _ ih

/-- Inserting an element of priority `q` puts it at the head of the
priority-`q` sublist. -/
theorem filter_sortInsert_eq (q : RecommendationPriority) (x : ABSARecommendation)
    (hx : x.priority = q) (l : List ABSARecommendation) :
    (sortInsert x l).filter (fun r => decide (r.priority = q))
      = x :: l.filter (fun r => decide (r.priority = q)) := by
  induction l with
  | nil => simp [sortInsert, hx]
  | cons y ys ih =>
    unfold sortInsert
    split_ifs with hlt
    · have hy : ¬ y.priority = q := by
        intro hyq
        rw [hyq, ← hx] at hlt
        omega
      simp [List.filter_cons, hy, ih]
    · simp [List.filter_cons, hx]

/-- Inserting an element of another priority leaves the priority-`q` sublist
unchanged. -/
theorem filter_sortInsert_ne (q : RecommendationPriority) (x : ABSARecommendation)
    (hx : ¬ x.priority = q) (l : List ABSARecommendation) :
    (sortInsert x l).filter (fun r => decide (r.priority = q))
      = l.filter (fun r => decide (r.priority = q)) := by
  induction l with
  | nil => simp [sortInsert, hx]
  | cons y ys ih =>
    unfold sortInsert
    split_ifs with hlt
    · by_cases hy : y.priority = q <;> simp [List.filter_cons, hy, ih]
    · simp [List.filter_cons, hx]

/-- The stable sort keeps each priority class in input order. -/
theorem filter_stableSort (q : RecommendationPriority) (l : List ABSARecommendation) :
    (stableSortByPriority l).filter (fun r => decide (r.priority = q))
      = l.filter (fun r => decide (r.priority = q)) := by
  induction l with
  | nil => rfl
  | cons x xs ih =>
    show (sortInsert x (stableSortByPriority xs)).filter _ = _
    by_cases hx : x.priority = q
    · rw [filter_sortInsert_eq q x hx, ih]
      simp [List.filter_cons, hx]
    · rw [filter_sortInsert_ne q x hx, ih]
      simp [List.filter_cons, hx]

end ABSASection

/-- A cue can only match a word it is an initial segment of. -/
theorem prefix_of_cueMatch {lw c : List Char} (h : cueMatch lw c = true) : c <+: lw := by
  simp only [cueMatch, Bool.or_eq_true] at h
  rcases h with h1 | h2
  · have he : lw = c := eq_of_beq h1
    subst he
    exact List.prefix_refl _
  · exact List.isPrefixOf_iff_prefix.mp h2

/-- Exhaustive check over the word lists: no positive or negative cue is an
initial segment of a suggestion cue or vice versa. -/
theorem cue_disjoint_check :
    ((POSITIVE_WORDS ++ NEGATIVE_WORDS).all (fun p =>
      SUGGESTION_WORDS.all (fun s => !(p.isPrefixOf s) && !(s.isPrefixOf p)))) = true := by
  decide

/-! ## Claim theorems -/

/-- Claim C1: for every sentiment summary the aggregation produces, the four
counts sum to the number of input comments (each comment lands in exactly one
bucket), so the total the pie chart recomputes as the sum of the four counts
equals `totalComments`, the denominator the overview uses. -/
theorem aggregated_sentiment_counts_sum_to_total (cs : List AnalyzedComment) :
    (aggregateSentiment cs).positive_count + (aggregateSentiment cs).negative_count
        + (aggregateSentiment cs).suggestion_count + (aggregateSentiment cs).neutral_count
      = cs.length
    ∧ sentimentPieTotal (aggregateSentiment cs) = cs.length := by
  have key : (aggregateSentiment cs).positive_count + (aggregateSentiment cs).negative_count
      + (aggregateSentiment cs).suggestion_count + (aggregateSentiment cs).neutral_count
      = cs.length := by
    induction cs with
    | nil => rfl
    | cons c t ih =>
      simp only [aggregateSentiment, List.filter_cons] at ih ⊢
      cases c.sentiment <;> simp <;> omega
  exact ⟨key, key⟩

/-- Claim C2 (counterexample): `OverviewContent` divides by `total_comments`
directly, so at `totalComments = 0` (all counts zero) its positive percentage
is the JavaScript NaN (modelled `none`), not `0` — the claim that every
component derives a `0` percentage in that case is false. -/
theorem overview_content_zero_total_percent_not_zero :
    OverviewContent.positivePercent ⟨0, 0, 0, 0⟩ 0 = none
    ∧ OverviewContent.positivePercent ⟨0, 0, 0, 0⟩ 0 ≠ some 0 := by
  constructor
  · rfl
  · intro h
    exact Option.noConfusion h

/-- Claim C2 (amended): in `ResultsOverview` the zero-comment case is handled
as a normal state — with `totalComments = 0` and a summary whose counts sum
to zero, all four percentages are `0`, the headline reads
"No comments analyzed" and the breakdown reads
"No comments were analyzed for this video."; `OverviewContent`, by contrast,
divides by `totalComments` itself (see the counterexample). -/
theorem results_overview_handles_zero_comments (s : SentimentSummary)
    (h : sentimentPieTotal s = 0) :
    ResultsOverview.view s 0 =
      ⟨0, 0, 0, 0, "No comments analyzed",
        "No comments were analyzed for this video."⟩ := by
  simp only [sentimentPieTotal] at h
  obtain ⟨h1, h2, h3, h4⟩ : s.positive_count = 0 ∧ s.negative_count = 0 ∧
      s.suggestion_count = 0 ∧ s.neutral_count = 0 := by omega
  have hp : ∀ c : Nat, c = 0 → ResultsOverview.percentage c 0 = 0 := by
    intro c hc
    subst hc
    simp only [ResultsOverview.percentage, ResultsOverview.totalForPercent, mathRound]
    norm_num
  have hd : s.countOf (ResultsOverview.dominantSentiment s) = 0 := by
    cases hds : ResultsOverview.dominantSentiment s <;>
      simp [SentimentSummary.countOf, h1, h2, h3, h4]
  simp [ResultsOverview.view, ResultsOverview.getHeadline, ResultsOverview.getBreakdown,
    hp _ h1, hp _ h2, hp _ h3, hp _ h4, hp _ hd]

/-- Claim C2 (witness): the amended theorem applied at the all-zero summary. -/
theorem results_overview_handles_zero_comments_witness :
    sentimentPieTotal ⟨0, 0, 0, 0⟩ = 0
    ∧ ResultsOverview.view ⟨0, 0, 0, 0⟩ 0 =
      ⟨0, 0, 0, 0, "No comments analyzed",
        "No comments were analyzed for this video."⟩ :=
  ⟨rfl, results_overview_handles_zero_comments ⟨0, 0, 0, 0⟩ rfl⟩

/-- Claim C3: the stage list is exactly the six pipeline stages in order, and
`getStageStatus` marks stages before the current one complete, the current one
active, later ones pending, and all six complete when the current stage is
`complete`. -/
theorem stage_status_matrix_correct :
    (STAGES.map StageInfo.id = pipelineStages) ∧
    (∀ i j : Fin 6, getStageStatus (stageAt i) (stageAt j) =
      (if (j : Nat) < (i : Nat) then StageStatus.complete
       else if j = i then StageStatus.active
       else StageStatus.pending)) ∧
    (∀ j : Fin 6, getStageStatus AnalysisStage.complete (stageAt j) = StageStatus.complete) := by
  refine ⟨rfl, ?_, ?_⟩ <;> decide

/-- Claim C4 (counterexample): with counts (positive 1, negative 0,
suggestion 5, neutral 0) the `OverviewContent` dominant-sentiment selection
returns `positive` even though `suggestion` holds the strictly largest count
(`ResultsOverview` does return `suggestion` there) — so it is not true that
every dominant-sentiment selection from the four counts picks the strictly
largest category. -/
theorem overview_dominant_ignores_suggestion :
    OverviewContent.dominantSentiment ⟨1, 0, 5, 0⟩ = OverviewContent.Tone.positive
    ∧ SentimentSummary.countOf ⟨1, 0, 5, 0⟩ SentimentType.suggestion
      > SentimentSummary.countOf ⟨1, 0, 5, 0⟩ SentimentType.positive
    ∧ ResultsOverview.dominantSentiment ⟨1, 0, 5, 0⟩ = SentimentType.suggestion := by
  decide

/-- Claim C4 (amended): the `ResultsOverview` dominant sentiment picks the
category with the largest count, ties resolved by the fixed order positive,
negative, suggestion, neutral (earlier wins); the `OverviewContent` dominant
value instead compares only the positive and negative counts — it ignores the
suggestion and neutral counts and returns `balanced` on a positive/negative
tie. -/
theorem dominant_sentiment_selection_characterized (s : SentimentSummary) (c : SentimentType) :
    s.countOf (ResultsOverview.dominantSentiment s)
      = max (max (max s.positive_count s.negative_count) s.suggestion_count) s.neutral_count
    ∧ (s.countOf c
          = max (max (max s.positive_count s.negative_count) s.suggestion_count) s.neutral_count
        → (ResultsOverview.dominantSentiment s).rank ≤ c.rank)
    ∧ OverviewContent.dominantSentiment s
        = OverviewContent.dominantSentiment ⟨s.positive_count, s.negative_count, 0, 0⟩
    ∧ (s.positive_count = s.negative_count
        → OverviewContent.dominantSentiment s = OverviewContent.Tone.balanced) := by
  refine ⟨?_, ?_, ?_, ?_⟩
  · simp only [ResultsOverview.dominantSentiment, List.foldl]
    split_ifs <;> dsimp only [SentimentSummary.countOf] <;> omega
  · intro hc
    simp only [ResultsOverview.dominantSentiment, List.foldl]
    split_ifs <;> cases c <;>
      dsimp only [SentimentSummary.countOf, SentimentType.rank] at hc ⊢ <;> omega
  · rfl
  · intro h
    simp [OverviewContent.dominantSentiment, h]

/-- Claim C4 (witness): the amended theorem applied at counts (2, 2, 1, 0)
and the category `negative`, whose count attains the maximum. -/
theorem dominant_sentiment_selection_characterized_witness :
    SentimentSummary.countOf ⟨2, 2, 1, 0⟩
        (ResultsOverview.dominantSentiment ⟨2, 2, 1, 0⟩) = max (max (max 2 2) 1) 0
    ∧ (ResultsOverview.dominantSentiment ⟨2, 2, 1, 0⟩).rank ≤ SentimentType.negative.rank
    ∧ OverviewContent.dominantSentiment ⟨2, 2, 1, 0⟩
      = OverviewContent.dominantSentiment ⟨2, 2, 0, 0⟩
    ∧ OverviewContent.dominantSentiment ⟨2, 2, 1, 0⟩ = OverviewContent.Tone.balanced := by
  have h := dominant_sentiment_selection_characterized ⟨2, 2, 1, 0⟩ SentimentType.negative
  exact ⟨h.1, h.2.1 (by decide), h.2.2.1, h.2.2.2 rfl⟩

/-- Claim C5: the displayed recommendation list is a permutation of the input,
ordered ascending by position in `PRIORITY_ORDER` (all critical before all
high before all medium before all low), and within each priority class the
original insertion order is preserved. -/
theorem recommendations_sorted_by_priority_stable (recs : List ABSARecommendation) :
    (ABSASection.sortedRecommendations recs).Perm recs
    ∧ (ABSASection.sortedRecommendations recs).Pairwise
        (fun a b => priorityIndex a.priority ≤ priorityIndex b.priority)
    ∧ ∀ q : RecommendationPriority,
        (ABSASection.sortedRecommendations recs).filter (fun r => decide (r.priority = q))
          = recs.filter (fun r => decide (r.priority = q)) :=
  ⟨ABSASection.stableSort_perm recs, ABSASection.pairwise_stableSort recs,
    fun q => ABSASection.filter_stableSort q recs⟩

/-- Claim C6: a `null` summaries entry is never rendered as empty text — with
`commentCount ≥ 5` the card shows the explicit unavailability fallback, below
that the not-enough-data message, and in both cases a nonempty placeholder. -/
theorem summary_card_null_entry_fallback (commentCount : Nat) :
    SummaryCard.renderedSummaryText none commentCount =
      (if 5 ≤ commentCount then "AI summary unavailable"
       else "Not enough data for a reliable summary (need 5+ comments)")
    ∧ SummaryCard.renderedSummaryText none commentCount ≠ "" := by
  unfold SummaryCard.renderedSummaryText SummaryCard.summaryTruthy SummaryCard.hasEnoughData
  by_cases h : 5 ≤ commentCount <;> simp [h]

/-- Claim C7: no word can carry both a suggestion cue and a positive or
negative cue (any two cues matching the same word are initial segments of it,
hence comparable, and the word lists are cross-prefix-disjoint), so the type
assigned when both signals exist is vacuously `suggestion` — the boolean form
of the implication holds for every word.  (Note the decision chain itself
tests positive and negative before suggestion.) -/
theorem suggestion_cue_never_overlaps_polarity_cues (w : List Char) :
    ((SUGGESTION_WORDS.any (fun sw => cueMatch w sw)) &&
      ((POSITIVE_WORDS.any (fun pw => cueMatch w pw))
        || (NEGATIVE_WORDS.any (fun nw => cueMatch w nw)))) = false
    ∧ ((!((SUGGESTION_WORDS.any (fun sw => cueMatch w sw)) &&
        ((POSITIVE_WORDS.any (fun pw => cueMatch w pw))
          || (NEGATIVE_WORDS.any (fun nw => cueMatch w nw)))))
        || (cueType w == HighlightType.suggestion)) = true := by
  have key : ((SUGGESTION_WORDS.any (fun sw => cueMatch w sw)) &&
      ((POSITIVE_WORDS.any (fun pw => cueMatch w pw))
        || (NEGATIVE_WORDS.any (fun nw => cueMatch w nw)))) = false := by
    by_contra hne
    rw [Bool.not_eq_false, Bool.and_eq_true, Bool.or_eq_true] at hne
    obtain ⟨hsug, hpn⟩ := hne
    obtain ⟨s0, hs0mem, hs0⟩ := List.any_eq_true.mp hsug
    have hcmem : ∃ c0 ∈ POSITIVE_WORDS ++ NEGATIVE_WORDS, cueMatch w c0 = true := by
      rcases hpn with hp | hn
      · obtain ⟨p0, hp0mem, hp0⟩ := List.any_eq_true.mp hp
        exact ⟨p0, List.mem_append_left _ hp0mem, hp0⟩
      · obtain ⟨n0, hn0mem, hn0⟩ := List.any_eq_true.mp hn
        exact ⟨n0, List.mem_append_right _ hn0mem, hn0⟩
    obtain ⟨c0, hc0mem, hc0⟩ := hcmem
    have hdisj := cue_disjoint_check
    rw [List.all_eq_true] at hdisj
    have hd := hdisj c0 hc0mem
    rw [List.all_eq_true] at hd
    have hd2 := hd s0 hs0mem
    rw [Bool.and_eq_true, Bool.not_eq_true', Bool.not_eq_true'] at hd2
    have hps : s0 <+: w := prefix_of_cueMatch hs0
    have hpc : c0 <+: w := prefix_of_cueMatch hc0
    rcases List.prefix_or_prefix_of_prefix hpc hps with hcs | hsc
    · have hx : c0.isPrefixOf s0 = true := List.isPrefixOf_iff_prefix.mpr hcs
      rw [hx] at hd2
      exact Bool.false_ne_true hd2.1.symm
    · have hx : s0.isPrefixOf c0 = true := List.isPrefixOf_iff_prefix.mpr hsc
      rw [hx] at hd2
      exact Bool.false_ne_true hd2.2.symm
  refine ⟨key, ?_⟩
  rw [key]
  rfl

/-- Claim C8: the per-aspect health value of `AspectCard` equals the spec
formula `50 + 50 * s` exactly, and for a sentiment score in `[-1, 1]` it lies
in `[0, 100]`. -/
theorem aspect_card_health_matches_spec_formula (s : ℚ) (h1 : -1 ≤ s) (h2 : s ≤ 1) :
    aspectCardHealthScore s = specAspectHealth s
    ∧ 0 ≤ aspectCardHealthScore s ∧ aspectCardHealthScore s ≤ 100 := by
  have e : aspectCardHealthScore s = 50 + 50 * s := by
    unfold aspectCardHealthScore
    ring
  refine ⟨by rw [e]; rfl, by rw [e]; linarith, by rw [e]; linarith⟩

/-- Claim C8 (witness): the theorem applied at the score one half. -/
theorem aspect_card_health_matches_spec_formula_witness :
    (-1 ≤ (1 / 2 : ℚ)) ∧ ((1 / 2 : ℚ) ≤ 1) ∧
    (aspectCardHealthScore (1 / 2) = specAspectHealth (1 / 2)
      ∧ 0 ≤ aspectCardHealthScore (1 / 2) ∧ aspectCardHealthScore (1 / 2) ≤ 100) :=
  ⟨by norm_num, by norm_num,
    aspect_card_health_matches_spec_formula (1 / 2) (by norm_num) (by norm_num)⟩

/-- Claim C9: concatenating the segment texts in order restores the original
text exactly, and every segment whose type is not `normal` is one of the
matched words — its text is the word text, a nonempty run of class
characters, with the single type that word was assigned. -/
theorem highlighted_segments_partition_text (text : List Char) :
    ((getHighlightedSegments text).map Segment.text).flatten = text
    ∧ ∀ seg ∈ getHighlightedSegments text, seg.type ≠ HighlightType.normal →
        ∃ w ∈ highlightText text, seg.text = w.text ∧ seg.type = w.type ∧
          w.text ≠ [] ∧ w.text.all isClassChar = true := by
  constructor
  · have h := segsLoop_flatten (spanChain_highlightText text)
    rw [List.drop_zero] at h
    exact h
  · intro seg hseg hne
    obtain ⟨w, hwmem, hwtext, hwtype⟩ :=
      segsLoop_mem_of_ne_normal (highlightText text) 0 seg hseg hne
    obtain ⟨htext, hne2, hall⟩ := spanChain_all (spanChain_highlightText text) w hwmem
    exact ⟨w, hwmem, by rw [hwtext, ← htext], hwtype, hne2, hall⟩

/-- Claim C9 (witness): the theorem applied to the text "great video" and its
positive segment. -/
theorem highlighted_segments_partition_text_witness :
    (((getHighlightedSegments (String.toList "great video")).map Segment.text).flatten
      = String.toList "great video")
    ∧ (∃ w ∈ highlightText (String.toList "great video"),
        String.toList "great" = w.text ∧ HighlightType.positive = w.type ∧
        w.text ≠ [] ∧ w.text.all isClassChar = true) :=
  ⟨(highlighted_segments_partition_text (String.toList "great video")).1,
    (highlighted_segments_partition_text (String.toList "great video")).2
      ⟨String.toList "great", HighlightType.positive⟩
      (by decide) (by decide)⟩

/-- Claim C10: when the current stage is `error`, `getStageStatus` reports
every one of the six pipeline stages as `pending` (never `error` or
`complete`), because `error` is not in `STAGES` and `findIndex` yields `-1`
for it. -/
theorem error_stage_reports_all_pending :
    (findIndexJS (fun s => decide (s.id = AnalysisStage.error)) STAGES = -1)
    ∧ ∀ j : Fin 6, getStageStatus AnalysisStage.error (stageAt j) = StageStatus.pending := by
  decide
